import Mathlib

/-
Verification development for the Gollum Slack bot (index.js).

The program scans chat messages for change-list tokens of the form
CL#<digits>, turns each into a review URL, validates the URL with up to
two optional checks, and republishes the validated URLs.

Shallow embedding notes:
  - Messages are modelled as List Char.  The two regular expressions of
    extractP4SwarmURLsFromMessage are embedded by their operational
    semantics on such lists:
      find pattern  /.*?CL#([0-9]+).*/   : the leading .*? is lazy and
        the pattern is unanchored, so exec matches the FIRST occurrence
        of the literal CL# followed by at least one digit; the capture
        is the maximal digit run after that occurrence ([0-9]+ is
        greedy and the trailing .* never forces backtracking).
      strip pattern /.*?CL#[0-9]+(.*)/ with replacement by the capture:
        the leftmost match starts at the beginning of the line holding
        that same first occurrence (a dot never matches a newline), the
        match extends to the end of that line, and the replacement
        keeps everything after the digit run; the net effect is to keep
        the part of the string before the start of that line plus
        everything after the matched digit run.
  - The two asynchronous validators are embedded as pure functions of
    an explicit response environment; their try/catch structure is
    embedded by making the response an Except value.
  - The while-loop is embedded with explicit fuel (message.length + 1,
    which is proved sufficient) so that the function stays structurally
    recursive and evaluates by rfl.
-/

namespace Gollum

/-- The ShareMethod enumeration of index.js (lines 12-16). -/
inductive ShareMethod where
  | POST_IN_CHANNEL
  | POST_IN_THREAD
  | EDIT_MESSAGE
deriving DecidableEq, Repr

/-- The two validator toggles of index.js (lines 20-21), gathered into a
configuration record so theorems can quantify over them.  The source
pins them to the values in sourceConfig below. -/
structure Config where
  shouldCheckURLValid : Bool
  shouldCheckSwarmExists : Bool
deriving DecidableEq, Repr

/-- The configuration hard-coded in index.js lines 20-22:
shouldCheckURLValid = true, shouldCheckSwarmExists = false. -/
def sourceConfig : Config := ⟨true, false⟩

/-- shareMethod constant of index.js line 22. -/
def shareMethod : ShareMethod := ShareMethod.POST_IN_THREAD

/-- The fixed URL base of index.js line 32. -/
def swarmURLPrefix : String := "https://swarm.p4.eve.games/changes/"

/-- Outcome of the fetch(url) call in checkURL: either a response with a
numeric HTTP status, or a thrown network error (carrying its message). -/
def FetchResult : Type := Except String Nat

/-- checkURL (index.js lines 34-43): true when the response status is
not 404; a thrown network error is caught, logged, and yields false.
The function is total: no exception propagates to the caller. -/
def checkURL (r : FetchResult) : Bool :=
  match r with
  | Except.ok status => !(status == 404)
  | Except.error _ => false

/-- A JavaScript value in an id field of a review record: a number, a
string, or undefined (the field is absent). -/
inductive JSValue where
  | num (n : Nat)
  | str (s : String)
  | undef
deriving DecidableEq, Repr

/-- The fragment of JavaScript ToNumber needed for loose equality
between an id value and a change-list number: a string of digits
(including the empty string, which converts to 0) converts to its
numeric value; any other string converts to NaN, modelled as none. -/
def jsToNumber (s : String) : Option Nat :=
  if s.data.all Char.isDigit then some (s.data.foldl (fun n c => 10 * n + (c.toNat - '0'.toNat)) 0)
  else none

/-- JavaScript loose equality (==) between an id value and a number:
number vs number compares numerically; string vs number converts the
string with ToNumber (NaN compares unequal); undefined is never loosely
equal to a number. -/
def jsLooseEqNum (v : JSValue) (n : Nat) : Bool :=
  match v with
  | JSValue.num m => m == n
  | JSValue.str s =>
    match jsToNumber s with
    | some m => m == n
    | none => false
  | JSValue.undef => false

/-- A review record of the Swarm reviews payload; only the id field is
requested and inspected. -/
structure Review where
  id : JSValue
deriving DecidableEq, Repr

/-- The shape of response.data.data.reviews in checkSwarmReviewExists:
either the payload is malformed (accessing data.data.reviews throws,
landing in the inner catch) or it is a list of review records. -/
inductive SwarmPayload where
  | malformed
  | reviews (l : List Review)
deriving DecidableEq, Repr

/-- Outcome of the axios.get call in checkSwarmReviewExists: a payload,
or a thrown network error. -/
def SwarmResult : Type := Except String SwarmPayload

/-- checkSwarmReviewExists (index.js lines 45-71): a network error hits
the outer catch and yields false; a malformed payload, or an empty
review list (reviews[0] is undefined, so reading review.id throws),
hits the inner catch and yields false; otherwise the result is the
loose comparison review.id == changeListNumber on the first record.
The function is total: no exception propagates to the caller. -/
def checkSwarmReviewExists (changeListNumber : Nat) (r : SwarmResult) : Bool :=
  match r with
  | Except.error _ => false
  | Except.ok SwarmPayload.malformed => false
  | Except.ok (SwarmPayload.reviews []) => false
  | Except.ok (SwarmPayload.reviews (review :: _)) => jsLooseEqNum review.id changeListNumber

/-- parseInt(matches[1], 10) on a captured digit string. -/
def parseIntDigits (ds : List Char) : Nat :=
  ds.foldl (fun n c => 10 * n + (c.toNat - '0'.toNat)) 0

/-- Splits a list into its maximal leading digit run and the remainder;
this is the action of the greedy [0-9]+ of both patterns. -/
def spanDigits : List Char → List Char × List Char
  | [] => ([], [])
  | c :: cs =>
    if c.isDigit then
      let p := spanDigits cs
      (c :: p.1, p.2)
    else ([], c :: cs)

/-- Whether the list begins with the literal CL# followed by a digit,
i.e. whether a match of the find pattern can be anchored here. -/
def isCLHead (s : List Char) : Bool :=
  match s with
  | c1 :: c2 :: c3 :: c4 :: _ => c1 == 'C' && c2 == 'L' && c3 == '#' && c4.isDigit
  | _ => false

/-- The find pattern /.*?CL#([0-9]+).*/ : scans for the first occurrence
of CL# followed by a digit and returns (prefix before the occurrence,
captured maximal digit run, remainder after the digit run), or none when
the pattern does not match (exec returns null and the loop breaks). -/
def findCL : List Char → Option (List Char × List Char × List Char)
  | [] => none
  | c :: cs =>
    if isCLHead (c :: cs) then
      let p := spanDigits ((c :: cs).drop 3)
      some ([], p.1, p.2)
    else (findCL cs).map (fun r => (c :: r.1, r.2.1, r.2.2))

/-- The prefix of a list up to and including its last newline (empty
when there is no newline).  This is the part of the text before the
matched token that the strip pattern cannot reach, because a dot never
matches a newline: the strip match starts at the beginning of the line
holding the matched token. -/
def keepUpToLastNewline (l : List Char) : List Char :=
  (l.reverse.dropWhile (fun c => !(c == '\n'))).reverse

/-- message.replace(/.*?CL#[0-9]+(.*)/, the capture), given the
decomposition produced by findCL: pre is the text before the matched
CL# occurrence and rest the text after its digit run.  The replacement
deletes the matched line region up through the digit run, keeping the
earlier lines of pre and everything after the digit run. -/
def stripNext (pre rest : List Char) : List Char :=
  keepUpToLastNewline pre ++ rest

/-- The checkPromiseArray of index.js lines 82-89, with the settled
boolean value of each pushed promise: one entry per enabled check, in
source order (URL check first, Swarm check second). -/
def candidateChecks (cfg : Config) (f : String → FetchResult) (g : Nat → SwarmResult)
    (ds : List Char) : List Bool :=
  (if cfg.shouldCheckURLValid then [checkURL (f ( swarmURLPrefix ++ String.mk ds))] else [])
    ++ (if cfg.shouldCheckSwarmExists then
          [checkSwarmReviewExists (parseIntDigits ds) (g (parseIntDigits ds))] else [])

/-- checkPromiseResults.every(result => result == true) on the settled
check results (index.js line 91). -/
def allChecksPassed (cfg : Config) (f : String → FetchResult) (g : Nat → SwarmResult)
    (ds : List Char) : Bool :=
  (candidateChecks cfg f g ds).all (fun result => result == true)

/-- The while-loop of extractP4SwarmURLsFromMessage (index.js lines
77-94) with explicit fuel: on each iteration, run the find pattern; on
no match, stop; otherwise build the candidate URL, run the enabled
checks, append the URL when every settled result is true, and continue
on the stripped message. -/
def extractFuel (cfg : Config) (f : String → FetchResult) (g : Nat → SwarmResult) :
    Nat → List Char → List String
  | 0, _ => []
  | fuel + 1, message =>
    match findCL message with
    | none => []
    | some (pre, ds, rest) =>
      (if allChecksPassed cfg f g ds then [ swarmURLPrefix ++ String.mk ds] else [])
        ++ extractFuel cfg f g fuel (stripNext pre rest)

/-- extractP4SwarmURLsFromMessage (index.js lines 73-96): the loop run
with fuel message.length + 1, which is proved sufficient below (each
iteration strictly shortens the message). -/
def extractP4SwarmURLsFromMessage (cfg : Config) (f : String → FetchResult)
    (g : Nat → SwarmResult) (message : List Char) : List String :=
  extractFuel cfg f g (message.length + 1) message

/-! ### Structural lemmas about the embedded patterns -/

theorem spanDigits_append (l : List Char) : (spanDigits l).1 ++ (spanDigits l).2 = l := by
  induction l with
  | nil => rfl
  | cons c cs ih =>
    by_cases h : c.isDigit
    · simp [spanDigits, h]
      exact ih
    · simp [spanDigits, h]

theorem spanDigits_all_digits (l : List Char) : (spanDigits l).1.all Char.isDigit = true := by
  induction l with
  | nil => rfl
  | cons c cs ih =>
    by_cases h : c.isDigit
    · simp [spanDigits, h]
      simpa using ih
    · simp [spanDigits, h]

theorem spanDigits_ne_nil (c : Char) (cs : List Char) (h : c.isDigit = true) :
    (spanDigits (c :: cs)).1 ≠ [] := by
  simp [spanDigits, h]

/-- Any successful find decomposes the scanned string as
pre ++ CL# ++ digits ++ rest, with a nonempty all-digit capture. -/
theorem findCL_structure (s pre ds rest : List Char)
    (h : findCL s = some (pre, ds, rest)) :
    s = pre ++ 'C' :: 'L' :: '#' :: (ds ++ rest) ∧ ds ≠ [] ∧ ds.all Char.isDigit = true := by
  induction s generalizing pre ds rest with
  | nil => simp [findCL] at h
  | cons c cs ih =>
    by_cases hh : isCLHead (c :: cs)
    · match cs, hh with
      | [], hh => simp [isCLHead] at hh
      | [c2], hh => simp [isCLHead] at hh
      | [c2, c3], hh => simp [isCLHead] at hh
      | c2 :: c3 :: c4 :: cs4, hh =>
        simp only [isCLHead, Bool.and_eq_true, beq_iff_eq] at hh
        obtain ⟨⟨⟨h1, h2⟩, h3⟩, h4⟩ := hh
        subst h1; subst h2; subst h3
        have hspan : findCL ('C' :: 'L' :: '#' :: c4 :: cs4)
            = some ([], (spanDigits (c4 :: cs4)).1, (spanDigits (c4 :: cs4)).2) := by
          simp [findCL, isCLHead, h4]
        rw [hspan] at h
        simp only [Option.some.injEq, Prod.mk.injEq] at h
        obtain ⟨h1, h2, h3⟩ := h
        subst h1
        refine ⟨?_, ?_, ?_⟩
        · simp only [List.nil_append, List.cons.injEq, true_and]
          rw [← h2, ← h3]
          exact (spanDigits_append (c4 :: cs4)).symm
        · rw [← h2]; exact spanDigits_ne_nil c4 cs4 h4
        · rw [← h2]; exact spanDigits_all_digits _
    · have hstep : findCL (c :: cs) = (findCL cs).map (fun r => (c :: r.1, r.2.1, r.2.2)) := by
        simp [findCL, hh]
      rw [hstep] at h
      match hr : findCL cs with
      | none => rw [hr] at h; simp at h
      | some (pre', ds', rest') =>
        rw [hr] at h
        simp only [Option.map_some', Option.some.injEq, Prod.mk.injEq] at h
        obtain ⟨h1, h2, h3⟩ := h
        subst h1; subst h2; subst h3
        obtain ⟨h1, h2, h3⟩ := ih pre' ds' rest' hr
        exact ⟨by rw [List.cons_append, ← h1], h2, h3⟩

theorem keepUpToLastNewline_length_le (l : List Char) :
    (keepUpToLastNewline l).length ≤ l.length := by
  unfold keepUpToLastNewline
  calc (l.reverse.dropWhile fun c => !(c == '\n')).reverse.length
      = (l.reverse.dropWhile fun c => !(c == '\n')).length := List.length_reverse ..
    _ ≤ l.reverse.length := (List.dropWhile_sublist _).length_le
    _ = l.length := List.length_reverse ..

/-- One loop iteration strictly shortens the message: the strip
replacement deletes at least the four characters CL# plus one digit. -/
theorem stripNext_length_lt (s pre ds rest : List Char)
    (h : findCL s = some (pre, ds, rest)) :
    (stripNext pre rest).length < s.length := by
  obtain ⟨hs, hds, _⟩ := findCL_structure s pre ds rest h
  have hlen : s.length = pre.length + (3 + (ds.length + rest.length)) := by
    rw [hs]; simp only [List.length_append, List.length_cons]; omega
  have hdspos : 0 < ds.length := List.length_pos.mpr hds
  have : (stripNext pre rest).length ≤ pre.length + rest.length := by
    unfold stripNext
    rw [List.length_append]
    exact Nat.add_le_add_right (keepUpToLastNewline_length_le pre) _
  omega

/-- The fuel used by extractP4SwarmURLsFromMessage is sufficient: any
fuel exceeding the message length yields the converged loop result. -/
theorem extractFuel_converge (cfg : Config) (f : String → FetchResult)
    (g : Nat → SwarmResult) :
    ∀ (n fuel : Nat) (msg : List Char), msg.length ≤ n → msg.length < fuel →
      extractFuel cfg f g fuel msg = extractP4SwarmURLsFromMessage cfg f g msg := by
  intro n
  induction n with
  | zero =>
    intro fuel msg hn hfuel
    have : msg = [] := List.length_eq_zero.mp (Nat.le_zero.mp hn)
    subst this
    match fuel, hfuel with
    | fuel + 1, _ => rfl
  | succ n ih =>
    intro fuel msg hn hfuel
    match fuel, hfuel with
    | fuel + 1, hfuel =>
      show extractFuel cfg f g (fuel + 1) msg
          = extractFuel cfg f g (msg.length + 1) msg
      match hfind : findCL msg with
      | none =>
        simp [extractFuel, hfind]
      | some (pre, ds, rest) =>
        have hlt := stripNext_length_lt msg pre ds rest hfind
        have h1 : extractFuel cfg f g fuel (stripNext pre rest)
            = extractP4SwarmURLsFromMessage cfg f g (stripNext pre rest) :=
          ih fuel (stripNext pre rest) (by omega) (by omega)
        have h2 : extractFuel cfg f g msg.length (stripNext pre rest)
            = extractP4SwarmURLsFromMessage cfg f g (stripNext pre rest) :=
          ih msg.length (stripNext pre rest) (by omega) (by omega)
        simp only [extractFuel, hfind]
        rw [h1, h2]

/-- Unfolding equation of the extraction loop at a successful find. -/
theorem extract_unfold_some (cfg : Config) (f : String → FetchResult)
    (g : Nat → SwarmResult) (msg pre ds rest : List Char)
    (h : findCL msg = some (pre, ds, rest)) :
    extractP4SwarmURLsFromMessage cfg f g msg
      = (if allChecksPassed cfg f g ds then [ swarmURLPrefix ++ String.mk ds] else [])
        ++ extractP4SwarmURLsFromMessage cfg f g (stripNext pre rest) := by
  have hlt := stripNext_length_lt msg pre ds rest h
  show extractFuel cfg f g (msg.length + 1) msg = _
  simp only [extractFuel, h]
  rw [extractFuel_converge cfg f g msg.length msg.length (stripNext pre rest) (by omega) (by omega)]

/-- Unfolding equation of the extraction loop at a failed find. -/
theorem extract_unfold_none (cfg : Config) (f : String → FetchResult)
    (g : Nat → SwarmResult) (msg : List Char) (h : findCL msg = none) :
    extractP4SwarmURLsFromMessage cfg f g msg = [] := by
  show extractFuel cfg f g (msg.length + 1) msg = _
  simp [extractFuel, h]

/-- Appending text that starts with the literal C cannot create a match
anchor inside or at the end of a string that had none: the characters
L and # of a genuine anchor cannot be supplied by the appended C. -/
theorem isCLHead_append_false (a : List Char) (d : Char) (r : List Char)
    (hne : a ≠ []) (hh : isCLHead a = false) :
    isCLHead (a ++ 'C' :: 'L' :: '#' :: d :: r) = false := by
  match a, hne with
  | [c1], _ =>
    have h2 : (('C' : Char) == 'L') = false := by decide
    simp [isCLHead, h2]
  | [c1, c2], _ =>
    have h3 : (('C' : Char) == '#') = false := by decide
    simp [isCLHead, h3]
  | [c1, c2, c3], _ =>
    have h4 : ('C' : Char).isDigit = false := by decide
    simp [isCLHead, h4]
  | c1 :: c2 :: c3 :: c4 :: a4, _ =>
    simpa [isCLHead] using hh

/-- The find pattern is lazy: a string whose prefix a holds no token,
followed by CL# and a digit, matches exactly at that first token, and
the capture is its maximal digit run with the whole remainder kept. -/
theorem findCL_append (a : List Char) (d : Char) (r : List Char)
    (hd : d.isDigit = true) (ha : findCL a = none) :
    findCL (a ++ 'C' :: 'L' :: '#' :: d :: r)
      = some (a, (spanDigits (d :: r)).1, (spanDigits (d :: r)).2) := by
  induction a with
  | nil =>
    simp [findCL, isCLHead, hd]
  | cons c a' ih =>
    have hh : isCLHead (c :: a') = false := by
      by_contra hcon
      have hcon' : isCLHead (c :: a') = true := by simpa using hcon
      simp [findCL, hcon'] at ha
    have ha' : findCL a' = none := by
      cases hfa : findCL a' with
      | none => rfl
      | some v => simp [findCL, hh, hfa] at ha
    have hhead : isCLHead (c :: (a' ++ 'C' :: 'L' :: '#' :: d :: r)) = false := by
      have := isCLHead_append_false (c :: a') d r (by simp) hh
      simpa using this
    have hrec := ih ha'
    show findCL (c :: (a' ++ 'C' :: 'L' :: '#' :: d :: r)) = _
    simp [findCL, hhead, hrec]

/-- Every element of the loop result is the fixed URL base followed by
a nonempty digit string (the capture of some iteration whose enabled
checks all passed). -/
theorem mem_extractFuel (cfg : Config) (f : String → FetchResult) (g : Nat → SwarmResult) :
    ∀ (fuel : Nat) (msg : List Char) (u : String), u ∈ extractFuel cfg f g fuel msg →
      ∃ ds : List Char, ds ≠ [] ∧ ds.all Char.isDigit = true ∧
        allChecksPassed cfg f g ds = true ∧ u = swarmURLPrefix ++ String.mk ds := by
  intro fuel
  induction fuel with
  | zero => intro msg u hu; simp [extractFuel] at hu
  | succ fuel ih =>
    intro msg u hu
    match hfind : findCL msg with
    | none => rw [extractFuel, hfind] at hu; simp at hu
    | some (pre, ds, rest) =>
      rw [extractFuel, hfind] at hu
      simp only [List.mem_append] at hu
      rcases hu with hu | hu
      · by_cases hv : allChecksPassed cfg f g ds
        · rw [if_pos hv] at hu
          simp only [List.mem_singleton] at hu
          obtain ⟨_, h2, h3⟩ := findCL_structure msg pre ds rest hfind
          exact ⟨ds, h2, h3, hv, hu⟩
        · rw [if_neg hv] at hu
          simp at hu
      · exact ih (stripNext pre rest) u hu

/-! ### The message-event handler (Publisher) -/

/-- The one outbound chat operation a handler invocation performs:
nothing, a say call with a text and an optional thread anchor, or a
chat.update call (index.js lines 108-135). -/
inductive PublishAction where
  | silent
  | say (text : String) (thread_ts : Option String)
  | chatUpdate (channel : String) (ts : String) (text : String)
deriving DecidableEq, Repr

/-- Observable outcome of the message-event handler body: the emitted
action, whether the call-site catch of the EDIT_MESSAGE branch ran,
whether an exception escaped the handler, and whether a rejected
promise was left behind unobserved. -/
structure HandlerResult where
  action : PublishAction
  callSiteCaught : Bool
  handlerThrew : Bool
  danglingRejection : Bool
deriving DecidableEq, Repr

/-- The share-message concatenation of index.js lines 111-113: starting
from the empty string, append a newline and each URL in turn. -/
def buildShareText (swarmURLArray : List String) : String :=
  swarmURLArray.foldl (fun message url => message ++ "\n" ++ url) ""

/-- The body of the .then callback of the message-event handler
(index.js lines 101-137), given the extracted URL list and, for the
EDIT_MESSAGE branch, the settled outcome of the client.chat.update
promise.  JavaScript semantics embedded here: client.chat.update
returns a promise and the call is not awaited, so the surrounding
try/catch observes no synchronous exception; a platform rejection such
as cant_update_message therefore never reaches that catch and remains
an unobserved rejected promise.  The handler body itself never
throws. -/
def handleSwarmURLArray (sm : ShareMethod) (eventTs eventChannel : String)
    (updateOutcome : Except String Unit) (swarmURLArray : List String) : HandlerResult :=
  if swarmURLArray.length == 0 then
    ⟨PublishAction.silent, false, false, false⟩
  else
    match sm with
    | ShareMethod.POST_IN_CHANNEL | ShareMethod.POST_IN_THREAD =>
      ⟨PublishAction.say (buildShareText swarmURLArray)
          (if sm == ShareMethod.POST_IN_THREAD then some eventTs else none),
        false, false, false⟩
    | ShareMethod.EDIT_MESSAGE =>
      ⟨PublishAction.chatUpdate eventChannel eventTs "This is a test!",
        false, false,
        match updateOutcome with
        | Except.error _ => true
        | Except.ok _ => false⟩

/-! ### Shared global state across interleaved invocations -/

/-- The accesses one extraction invocation makes to the implicit global
variable swarmURLArray: index.js line 76 assigns it without a
declarator (no var, let or const, and the file is not in strict mode),
so the assignment writes a process-wide global; line 92 pushes into
whatever array that global currently references; line 95 returns the
global.  Each iteration of the loop awaits Promise.all, so another
invocation may run between any two of these accesses. -/
inductive GlobalAction where
  | reset
  | push (u : String)
deriving DecidableEq, Repr

/-- The global accesses of one loop run, with the same fuel discipline
as extractFuel: one push per iteration whose checks all passed. -/
def invocationTraceFuel (cfg : Config) (f : String → FetchResult) (g : Nat → SwarmResult) :
    Nat → List Char → List GlobalAction
  | 0, _ => []
  | fuel + 1, message =>
    match findCL message with
    | none => []
    | some (pre, ds, rest) =>
      (if allChecksPassed cfg f g ds then [GlobalAction.push ( swarmURLPrefix ++ String.mk ds)]
        else [])
        ++ invocationTraceFuel cfg f g fuel (stripNext pre rest)

/-- The full global-access trace of one extractP4SwarmURLsFromMessage
invocation: the initial reset of line 76, then the pushes. -/
def invocationTrace (cfg : Config) (f : String → FetchResult) (g : Nat → SwarmResult)
    (message : List Char) : List GlobalAction :=
  GlobalAction.reset :: invocationTraceFuel cfg f g (message.length + 1) message

/-- Value of the shared global array after a schedule of accesses.
Because every invocation returns the global reference, the array each
caller observes once all interleaved invocations settle is this final
value. -/
def runGlobal : List GlobalAction → List String → List String
  | [], acc => acc
  | GlobalAction.reset :: rest, _ => runGlobal rest []
  | GlobalAction.push u :: rest, acc => runGlobal rest (acc ++ [u])

/-! ### String concatenation helpers -/

theorem foldl_string_append_acc (l : List String) :
    ∀ acc : String, l.foldl (fun r s => r ++ s) acc = acc ++ l.foldl (fun r s => r ++ s) "" := by
  induction l with
  | nil => intro acc; simp [String.append_empty]
  | cons x xs ih =>
    intro acc
    simp only [List.foldl_cons]
    rw [ih (acc ++ x), ih ("" ++ x)]
    rw [String.empty_append, String.append_assoc]

theorem string_join_cons (x : String) (l : List String) :
    String.join (x :: l) = x ++ String.join l := by
  show List.foldl (fun r s => r ++ s) "" (x :: l) = _
  simp only [List.foldl_cons]
  rw [foldl_string_append_acc l ("" ++ x), String.empty_append]
  rfl

theorem buildShareText_eq_join (urls : List String) :
    buildShareText urls = String.join (urls.map fun u => "\n" ++ u) := by
  have key : ∀ (us : List String) (acc : String),
      us.foldl (fun message url => message ++ "\n" ++ url) acc
        = acc ++ String.join (us.map fun u => "\n" ++ u) := by
    intro us
    induction us with
    | nil => intro acc; simp [String.join, String.append_empty]
    | cons u t ih =>
      intro acc
      simp only [List.foldl_cons, List.map_cons]
      rw [ih (acc ++ "\n" ++ u), string_join_cons]
      rw [String.append_assoc, String.append_assoc, String.append_assoc]
  have := key urls ""
  rw [String.empty_append] at this
  exact this

/-! ### Claim theorems -/

/-- C3: checkURL returns true exactly when the HTTP response status is
not 404; a 200 response is accepted, a 404 response is rejected, and a
thrown network error makes the check return false (the function is
total, so the exception never propagates to the caller). -/
theorem checkURL_spec :
    (∀ status : Nat, checkURL (Except.ok status) = !(status == 404))
    ∧ checkURL (Except.ok 200) = true
    ∧ checkURL (Except.ok 404) = false
    ∧ (∀ e : String, checkURL (Except.error e) = false) := by
  refine ⟨fun status => rfl, rfl, rfl, fun e => rfl⟩

/-- C4: checkSwarmReviewExists returns true if and only if the first
returned review record's id loosely equals the requested change-list
number; an empty review list, a mismatched or non-numeric id, a
malformed payload, and a thrown network error all yield false, and the
function is total, so no exception propagates past the check. -/
theorem checkSwarmReviewExists_spec :
    (∀ (n : Nat) (review : Review) (t : List Review),
      checkSwarmReviewExists n (Except.ok (SwarmPayload.reviews (review :: t)))
        = jsLooseEqNum review.id n)
    ∧ (∀ n : Nat, checkSwarmReviewExists n (Except.ok (SwarmPayload.reviews [])) = false)
    ∧ (∀ n : Nat, checkSwarmReviewExists n (Except.ok SwarmPayload.malformed) = false)
    ∧ (∀ (n : Nat) (e : String), checkSwarmReviewExists n (Except.error e) = false) := by
  exact ⟨fun n review t => rfl, fun n => rfl, fun n => rfl, fun n e => rfl⟩

/-- C5: for a non-empty validated URL list and originating timestamp T,
the POST_IN_THREAD branch emits exactly one say call whose text is the
newline-prefixed concatenation of the URLs and whose thread anchor is
T; the POST_IN_CHANNEL branch emits the same text with no anchor. -/
theorem publisher_post_spec (urls : List String) (ts ch : String)
    (upd : Except String Unit) (hne : urls ≠ []) :
    (handleSwarmURLArray ShareMethod.POST_IN_THREAD ts ch upd urls).action
        = PublishAction.say (String.join (urls.map fun u => "\n" ++ u)) (some ts)
    ∧ (handleSwarmURLArray ShareMethod.POST_IN_CHANNEL ts ch upd urls).action
        = PublishAction.say (String.join (urls.map fun u => "\n" ++ u)) none := by
  have hlen : (urls.length == 0) = false := by
    simp [List.length_eq_zero, hne]
  constructor
  · simp [handleSwarmURLArray, hlen, buildShareText_eq_join]
  · simp [handleSwarmURLArray, hlen, buildShareText_eq_join]

/-- Witness for C5: with ValidatedURLs u1, u2 and timestamp T the
thread branch posts the text newline u1 newline u2 anchored at T, and
the channel branch posts the same text unanchored. -/
theorem publisher_post_spec_witness :
    (handleSwarmURLArray ShareMethod.POST_IN_THREAD "T" "C" (Except.ok ()) ["u1", "u2"]).action
        = PublishAction.say "\nu1\nu2" (some "T")
    ∧ (handleSwarmURLArray ShareMethod.POST_IN_CHANNEL "T" "C" (Except.ok ()) ["u1", "u2"]).action
        = PublishAction.say "\nu1\nu2" none := by
  have h := publisher_post_spec ["u1", "u2"] "T" "C" (Except.ok ()) (by decide)
  have hjoin : String.join ((["u1", "u2"].map fun u => "\n" ++ u)) = "\nu1\nu2" := rfl
  exact ⟨by rw [h.1, hjoin], by rw [h.2, hjoin]⟩

/-- C2: per-candidate validity is the conjunction of the enabled
checks: with both checks disabled every candidate passes (every on an
empty array is vacuously true); with the URL check enabled and failing,
or the Swarm check enabled and failing, the candidate fails regardless
of the other check; and a candidate whose checks fail is excluded from
the extraction result. -/
theorem validity_conjunction (cfg : Config) (f : String → FetchResult)
    (g : Nat → SwarmResult) (ds : List Char) :
    (cfg.shouldCheckURLValid = false → cfg.shouldCheckSwarmExists = false →
      allChecksPassed cfg f g ds = true)
    ∧ (cfg.shouldCheckURLValid = true →
        checkURL (f ( swarmURLPrefix ++ String.mk ds)) = false →
        allChecksPassed cfg f g ds = false)
    ∧ (cfg.shouldCheckSwarmExists = true →
        checkSwarmReviewExists (parseIntDigits ds) (g (parseIntDigits ds)) = false →
        allChecksPassed cfg f g ds = false)
    ∧ (allChecksPassed cfg f g ds = false →
        ∀ msg : List Char,
          ( swarmURLPrefix ++ String.mk ds) ∉ extractP4SwarmURLsFromMessage cfg f g msg) := by
  refine ⟨?_, ?_, ?_, ?_⟩
  · intro h1 h2
    simp [allChecksPassed, candidateChecks, h1, h2]
  · intro h1 h2
    simp [allChecksPassed, candidateChecks, h1, h2]
  · intro h1 h2
    simp [allChecksPassed, candidateChecks, h1, h2]
  · intro hfail msg hmem
    obtain ⟨ds', hne', hdig', hpass', hu⟩ :=
      mem_extractFuel cfg f g (msg.length + 1) msg _ hmem
    have hdata := congrArg String.data hu
    simp only [String.data_append] at hdata
    have : ds = ds' := List.append_cancel_left hdata
    rw [this] at hfail
    rw [hpass'] at hfail
    exact Bool.noConfusion hfail

/-- Witness for C2: with both checks disabled the candidate with token
7 passes vacuously, and with the URL check enabled and the fetch
throwing a network error the URL of token 7 is excluded from the
extraction result of the message CL#7. -/
theorem validity_conjunction_witness :
    allChecksPassed ⟨false, false⟩ (fun _ => Except.ok 200) (fun _ => Except.error "x") ['7'] = true
    ∧ ( swarmURLPrefix ++ String.mk ['7'])
        ∉ extractP4SwarmURLsFromMessage ⟨true, false⟩ (fun _ => Except.error "down")
            (fun _ => Except.error "x") ("CL#7".data) := by
  constructor
  · exact (validity_conjunction ⟨false, false⟩ (fun _ => Except.ok 200)
      (fun _ => Except.error "x") ['7']).1 rfl rfl
  · exact (validity_conjunction ⟨true, false⟩ (fun _ => Except.error "down")
      (fun _ => Except.error "x") ['7']).2.2.2 rfl ("CL#7".data)

/-- C6: a message holding exactly one change-list token (one find
succeeds and the find on the stripped remainder fails), whose enabled
checks all pass (vacuously so when no check is enabled), extracts to
exactly one candidate URL: the fixed URL base followed by the token's
digit string. -/
theorem single_token_single_url (cfg : Config) (f : String → FetchResult)
    (g : Nat → SwarmResult) (msg pre ds rest : List Char)
    (h1 : findCL msg = some (pre, ds, rest))
    (h2 : findCL (stripNext pre rest) = none)
    (h3 : allChecksPassed cfg f g ds = true) :
    extractP4SwarmURLsFromMessage cfg f g msg = [ swarmURLPrefix ++ String.mk ds] := by
  rw [extract_unfold_some cfg f g msg pre ds rest h1,
      extract_unfold_none cfg f g (stripNext pre rest) h2, if_pos h3]
  rfl

/-- Witness for C6: the message containing the single token CL#1234,
with no check enabled, extracts to exactly the fixed base plus 1234. -/
theorem single_token_single_url_witness :
    extractP4SwarmURLsFromMessage ⟨false, false⟩ (fun _ => Except.ok 200)
        (fun _ => Except.error "x") ("see CL#1234 ok".data)
      = [ swarmURLPrefix ++ String.mk "1234".data] :=
  single_token_single_url ⟨false, false⟩ (fun _ => Except.ok 200) (fun _ => Except.error "x")
    ("see CL#1234 ok".data) ("see ".data) ("1234".data) (" ok".data) rfl rfl rfl

/-- C8: the extraction loop terminates on every message: each
successful find captures at least one digit and the stripped remainder
is strictly shorter, and any fuel exceeding the message length yields
the converged loop result, so the iteration count is bounded by the
message length. -/
theorem extraction_terminates :
    (∀ s pre ds rest : List Char, findCL s = some (pre, ds, rest) →
        ds ≠ [] ∧ (stripNext pre rest).length < s.length)
    ∧ (∀ (cfg : Config) (f : String → FetchResult) (g : Nat → SwarmResult)
        (fuel : Nat) (msg : List Char), msg.length < fuel →
        extractFuel cfg f g fuel msg = extractP4SwarmURLsFromMessage cfg f g msg) := by
  constructor
  · intro s pre ds rest h
    exact ⟨(findCL_structure s pre ds rest h).2.1, stripNext_length_lt s pre ds rest h⟩
  · intro cfg f g fuel msg h
    exact extractFuel_converge cfg f g msg.length fuel msg (Nat.le_refl _) h

/-- Witness for C8: on the message CL#1 the single find captures the
nonempty digit list and strictly shrinks the message, and fuel 9
already yields the converged extraction result. -/
theorem extraction_terminates_witness :
    ((['1'] : List Char) ≠ [] ∧ (stripNext [] []).length < ("CL#1".data).length)
    ∧ extractFuel ⟨false, false⟩ (fun _ => Except.ok 200) (fun _ => Except.error "x") 9 ("CL#1".data)
      = extractP4SwarmURLsFromMessage ⟨false, false⟩ (fun _ => Except.ok 200)
          (fun _ => Except.error "x") ("CL#1".data) :=
  ⟨extraction_terminates.1 ("CL#1".data) [] ['1'] [] rfl,
   extraction_terminates.2 ⟨false, false⟩ (fun _ => Except.ok 200) (fun _ => Except.error "x")
     9 ("CL#1".data) (by decide)⟩

/-- C1 counterexample: on the message CL#1 foo CL#2 bar, whose two
tokens are distinct (so the duplicate and repeated-suffix escape
clauses of the claim do not apply), the first iteration matches the
FIRST token CL#1, not the last, and the loop discovers BOTH tokens, not
at most one: the result is the two URLs in left-to-right order. -/
theorem find_last_token_counterexample :
    extractP4SwarmURLsFromMessage sourceConfig (fun _ => Except.ok 200)
        (fun _ => Except.error "x") ("CL#1 foo CL#2 bar".data)
      = [ swarmURLPrefix ++ "1", swarmURLPrefix ++ "2"]
    ∧ ( swarmURLPrefix ++ "1") ≠ ( swarmURLPrefix ++ "2") :=
  ⟨rfl, by decide⟩

/-- C1 amended: the find pattern is lazy, so it matches the FIRST
change-list token of the message; the strip keeps the prefix of the
token's line before the match start together with everything after the
matched digits, so the trailing text (including any later tokens)
remains in the search space and the loop discovers the tokens in
left-to-right order, one per iteration. -/
theorem find_matches_first_token (a : List Char) (d : Char) (r : List Char)
    (cfg : Config) (f : String → FetchResult) (g : Nat → SwarmResult)
    (hd : d.isDigit = true) (ha : findCL a = none) :
    findCL (a ++ 'C' :: 'L' :: '#' :: d :: r)
        = some (a, (spanDigits (d :: r)).1, (spanDigits (d :: r)).2)
    ∧ extractP4SwarmURLsFromMessage cfg f g (a ++ 'C' :: 'L' :: '#' :: d :: r)
        = (if allChecksPassed cfg f g (spanDigits (d :: r)).1
            then [ swarmURLPrefix ++ String.mk (spanDigits (d :: r)).1] else [])
          ++ extractP4SwarmURLsFromMessage cfg f g (stripNext a (spanDigits (d :: r)).2) := by
  have h := findCL_append a d r hd ha
  exact ⟨h, extract_unfold_some cfg f g (a ++ 'C' :: 'L' :: '#' :: d :: r) a
    (spanDigits (d :: r)).1 (spanDigits (d :: r)).2 h⟩

/-- Witness for C1 amended: in x CL#1 foo CL#2 bar the find matches the
first token, capturing 1 with the whole trailing text kept, and the
extraction unfolds accordingly. -/
theorem find_matches_first_token_witness :
    findCL ("x ".data ++ 'C' :: 'L' :: '#' :: '1' :: (" foo CL#2 bar".data))
        = some ("x ".data, (spanDigits ('1' :: (" foo CL#2 bar".data))).1,
            (spanDigits ('1' :: (" foo CL#2 bar".data))).2)
    ∧ extractP4SwarmURLsFromMessage ⟨false, false⟩ (fun _ => Except.ok 200)
        (fun _ => Except.error "x") ("x ".data ++ 'C' :: 'L' :: '#' :: '1' :: (" foo CL#2 bar".data))
        = (if allChecksPassed ⟨false, false⟩ (fun _ => Except.ok 200) (fun _ => Except.error "x")
              (spanDigits ('1' :: (" foo CL#2 bar".data))).1
            then [ swarmURLPrefix
                ++ String.mk (spanDigits ('1' :: (" foo CL#2 bar".data))).1] else [])
          ++ extractP4SwarmURLsFromMessage ⟨false, false⟩ (fun _ => Except.ok 200)
              (fun _ => Except.error "x")
              (stripNext ("x ".data) (spanDigits ('1' :: (" foo CL#2 bar".data))).2) :=
  find_matches_first_token ("x ".data) '1' (" foo CL#2 bar".data) ⟨false, false⟩
    (fun _ => Except.ok 200) (fun _ => Except.error "x") rfl rfl

/-- C9 counterexample: the message CL#1 CL#1 repeats one token; the
loop pushes its URL twice, so the result is NOT pairwise distinct. -/
theorem extraction_distinct_counterexample :
    extractP4SwarmURLsFromMessage sourceConfig (fun _ => Except.ok 200)
        (fun _ => Except.error "x") ("CL#1 CL#1".data)
      = [ swarmURLPrefix ++ "1", swarmURLPrefix ++ "1"]
    ∧ ¬ (extractP4SwarmURLsFromMessage sourceConfig (fun _ => Except.ok 200)
        (fun _ => Except.error "x") ("CL#1 CL#1".data)).Nodup := by
  have e : extractP4SwarmURLsFromMessage sourceConfig (fun _ => Except.ok 200)
      (fun _ => Except.error "x") ("CL#1 CL#1".data)
      = [ swarmURLPrefix ++ "1", swarmURLPrefix ++ "1"] := rfl
  refine ⟨e, ?_⟩
  rw [e]
  decide

/-- C9 amended: the Extractor produces the sequence of candidate URLs
of the discovered and validated tokens in discovery order, possibly
with repeats: every element is the fixed URL base followed by a
nonempty digit string, but the same URL may occur more than once when
the same token occurs more than once in the message. -/
theorem extraction_elements_shape (cfg : Config) (f : String → FetchResult)
    (g : Nat → SwarmResult) (msg : List Char) (u : String)
    (h : u ∈ extractP4SwarmURLsFromMessage cfg f g msg) :
    ∃ ds : List Char, ds ≠ [] ∧ ds.all Char.isDigit = true
      ∧ u = swarmURLPrefix ++ String.mk ds := by
  obtain ⟨ds, h1, h2, _, h4⟩ := mem_extractFuel cfg f g (msg.length + 1) msg u h
  exact ⟨ds, h1, h2, h4⟩

/-- Witness for C9 amended: the single element extracted from CL#1 has
the candidate URL shape. -/
theorem extraction_elements_shape_witness :
    ∃ ds : List Char, ds ≠ [] ∧ ds.all Char.isDigit = true
      ∧ ( swarmURLPrefix ++ "1") = swarmURLPrefix ++ String.mk ds :=
  extraction_elements_shape ⟨false, false⟩ (fun _ => Except.ok 200) (fun _ => Except.error "x")
    ("CL#1".data) ( swarmURLPrefix ++ "1") (by decide)

/-- C7 counterexample: when the platform rejects the mutation with
cant_update_message, the rejection is NOT caught or logged at the call
site: client.chat.update is invoked without await, so the try/catch
observes no exception and the rejection is left as an unobserved
rejected promise. -/
theorem edit_message_catch_counterexample :
    (handleSwarmURLArray ShareMethod.EDIT_MESSAGE "T" "C"
        (Except.error "cant_update_message") ["u"]).callSiteCaught = false
    ∧ (handleSwarmURLArray ShareMethod.EDIT_MESSAGE "T" "C"
        (Except.error "cant_update_message") ["u"]).danglingRejection = true :=
  ⟨rfl, rfl⟩

/-- C7 amended: the edit-message branch never throws past its boundary:
no exception propagates out of the event handler even when the platform
rejects the mutation; however the rejection is not caught by the
call-site try/catch (the update call is not awaited) and remains an
unobserved dangling rejected promise. -/
theorem edit_message_no_throw (ts ch e : String) (urls : List String)
    (upd : Except String Unit) (hne : urls ≠ []) :
    (handleSwarmURLArray ShareMethod.EDIT_MESSAGE ts ch upd urls).handlerThrew = false
    ∧ (handleSwarmURLArray ShareMethod.EDIT_MESSAGE ts ch (Except.error e) urls).callSiteCaught
        = false
    ∧ (handleSwarmURLArray ShareMethod.EDIT_MESSAGE ts ch (Except.error e) urls).danglingRejection
        = true := by
  match urls, hne with
  | u :: us, _ =>
    refine ⟨?_, rfl, rfl⟩
    show (handleSwarmURLArray ShareMethod.EDIT_MESSAGE ts ch upd (u :: us)).handlerThrew = false
    cases upd with
    | ok v => rfl
    | error e' => rfl

/-- Witness for C7 amended: at a concrete rejected mutation the handler
does not throw, the catch does not run, and a dangling rejection is
left. -/
theorem edit_message_no_throw_witness :
    (handleSwarmURLArray ShareMethod.EDIT_MESSAGE "T" "C"
        (Except.error "cant_update_message") ["u"]).handlerThrew = false
    ∧ (handleSwarmURLArray ShareMethod.EDIT_MESSAGE "T" "C"
        (Except.error "cant_update_message") ["u"]).callSiteCaught = false
    ∧ (handleSwarmURLArray ShareMethod.EDIT_MESSAGE "T" "C"
        (Except.error "cant_update_message") ["u"]).danglingRejection = true :=
  edit_message_no_throw "T" "C" "cant_update_message" ["u"]
    (Except.error "cant_update_message") (by decide)

/-- C10: swarmURLArray is assigned without a declarator (index.js line
76), creating a process-wide implicit global that every invocation
resets, pushes into, and returns.  In the interleaving where invocation
B (message CL#2) starts while invocation A (message CL#1) awaits its
first Promise.all, the schedule is A reset, B reset, A push, B push;
the shared array both invocations return ends as both URLs, whereas A
run in isolation yields only its own URL — so A's observable result IS
affected by B, contradicting the claim of no shared mutable state. -/
theorem shared_global_interleaving :
    invocationTrace sourceConfig (fun _ => Except.ok 200) (fun _ => Except.error "x") ("CL#1".data)
      = [GlobalAction.reset, GlobalAction.push ( swarmURLPrefix ++ "1")]
    ∧ invocationTrace sourceConfig (fun _ => Except.ok 200) (fun _ => Except.error "x")
        ("CL#2".data)
      = [GlobalAction.reset, GlobalAction.push ( swarmURLPrefix ++ "2")]
    ∧ runGlobal [GlobalAction.reset, GlobalAction.push ( swarmURLPrefix ++ "1")] []
      = [ swarmURLPrefix ++ "1"]
    ∧ runGlobal [GlobalAction.reset, GlobalAction.reset,
        GlobalAction.push ( swarmURLPrefix ++ "1"), GlobalAction.push ( swarmURLPrefix ++ "2")] []
      = [ swarmURLPrefix ++ "1", swarmURLPrefix ++ "2"] :=
  ⟨rfl, rfl, rfl, rfl⟩

end Gollum
